import Mathlib

/- Formal model of the Glance core engines: the drift scorer and health
   assessor of src/health.py (with the content fingerprint of
   src/glance/models.py) and the anchor resolver of src/resolver.py.

   Modeling conventions:
   * Python strings are Lean String values (sequences of unicode scalars);
     the character classes used by the code (str.strip, the regex classes
     for word and space characters) are modeled over their ASCII range,
     which covers every input the model is evaluated on.
   * Python floats are modeled as exact rationals; the literals 0.8, 0.4
     and 0.99 appearing in the source denote the corresponding rationals.
   * File system reads (Path.exists / read_text in resolve_region) are
     modeled by an Option String input: none stands for a missing,
     undecodable or permission-denied file.
   * str.splitlines is modeled for the line breaks \n, \r\n and \r (the
     exotic unicode line breaks it also recognizes are outside the model).
   * difflib.SequenceMatcher(None, a, b) is modeled faithfully, including
     the autojunk heuristic (characters of b that are "popular" are
     excluded from the block search when b has at least 200 characters)
     and the block extension loops of find_longest_match.  Since the code
     never supplies an isjunk predicate, the bjunk set is always empty:
     the two junk-extension loops never fire and the two non-junk
     extension loops extend over arbitrary matching characters. -/

/-- Python whitespace (the ASCII range of str.strip and the regex space
class): space, tab, newline, carriage return, vertical tab, form feed. -/
def isPySpace (c : Char) : Bool :=
  c == ' ' || c == '\t' || c == '\n' || c == '\r' || c == '\x0b' || c == '\x0c'

/-- Python word characters (the ASCII range of the regex word class):
letters, digits and underscore. -/
def isWordChar (c : Char) : Bool :=
  c.isAlphanum || c == '_'

/-- Helper for str.splitlines: accumulate the current line (reversed) and
split at \n, \r\n or \r.  A trailing line is emitted only if non-empty,
matching Python (for example, splitting the empty string gives no lines,
while splitting a lone newline gives one empty line). -/
def splitlinesAux : List Char → List Char → List (List Char)
  | [], acc => if acc.isEmpty then [] else [acc.reverse]
  | '\r' :: '\n' :: rest, acc => acc.reverse :: splitlinesAux rest []
  | '\r' :: rest, acc => acc.reverse :: splitlinesAux rest []
  | '\n' :: rest, acc => acc.reverse :: splitlinesAux rest []
  | c :: rest, acc => splitlinesAux rest (c :: acc)

/-- Model of Python str.splitlines. -/
def splitlines (s : String) : List String :=
  (splitlinesAux s.data []).map fun cs => ⟨cs⟩

/-- Model of Python str.strip on a character list: drop whitespace from
both ends. -/
def stripChars (l : List Char) : List Char :=
  ((l.dropWhile isPySpace).reverse.dropWhile isPySpace).reverse

/-- Model of Python str.strip. -/
def stripStr (s : String) : String :=
  ⟨stripChars s.data⟩

/-- Model of Python str.lstrip. -/
def lstripStr (s : String) : String :=
  ⟨s.data.dropWhile isPySpace⟩

/-- Substring test on character lists (Python's infix operator on
strings).  The empty needle occurs in every haystack. -/
def isInfixB (n : List Char) : List Char → Bool
  | [] => n.isEmpty
  | c :: t => n.isPrefixOf (c :: t) || isInfixB n t

/-- Model of the Python expression needle in haystack for strings. -/
def containsStr (hay needle : String) : Bool :=
  isInfixB needle.data hay.data

/-- The whitespace normalization of src/health.py (the module-level helper
named with a single leading underscore): split into lines, strip each
line, keep the non-blank ones, rejoin with newline. -/
def _normalize (text : String) : String :=
  String.intercalate "\n" (((splitlines text).map stripStr).filter (fun l => l ≠ ""))

/- ---------------------------------------------------------------------
   difflib.SequenceMatcher(None, a, b).ratio(), as invoked by
   compute_health on the two normalized strings.
   --------------------------------------------------------------------- -/

/-- The slice of a character list between two indices (lower inclusive,
upper exclusive). -/
def sliceSeg (l : List Char) (lo hi : Nat) : List Char :=
  (l.drop lo).take (hi - lo)

/-- Length of the longest common prefix of two character lists in which
every character contributed by the second list is non-junk.  This is the
length of the matching block starting at a given pair of positions that
the dictionary loop of find_longest_match can see (junk positions of b
are absent from the b2j index, so runs through them are broken). -/
def matchLenJ (junk : Char → Bool) : List Char → List Char → Nat
  | x :: xs, y :: ys =>
    if x = y ∧ junk y = false then matchLenJ junk xs ys + 1 else 0
  | _, _ => 0

/-- Length of the longest common prefix of two character lists, with no
junk restriction (used by the extension loops, whose junk set bjunk is
always empty here because the code never passes an isjunk predicate). -/
def matchLenF : List Char → List Char → Nat
  | x :: xs, y :: ys => if x = y then matchLenF xs ys + 1 else 0
  | _, _ => 0

/-- One step of the scan for the best matching block: candidates are
visited with the first index ascending and, for equal first index, the
second ascending; a candidate replaces the current best only when its
block is strictly longer.  This reproduces the tie-breaking of the
dictionary loop of find_longest_match: among maximal junk-free blocks the
one starting earliest in a, then earliest in b. -/
def bestStep (junk : Char → Bool) (a b : List Char) (ahi bhi : Nat)
    (best : Nat × Nat × Nat) (ij : Nat × Nat) : Nat × Nat × Nat :=
  let k := matchLenJ junk (sliceSeg a ij.1 ahi) (sliceSeg b ij.2 bhi)
  if best.2.2 < k then (ij.1, ij.2, k) else best

/-- Model of SequenceMatcher.find_longest_match on the regions
[alo, ahi) of a and [blo, bhi) of b: the longest matching block free of
junk characters of b (earliest in a, then in b), then extended on both
sides over arbitrary matching characters by the two non-junk extension
loops.  The two junk-extension loops are omitted: they test membership in
the bjunk set, which is empty because isjunk is never supplied. -/
def findLongestMatch (junk : Char → Bool) (a b : List Char)
    (alo ahi blo bhi : Nat) : Nat × Nat × Nat :=
  let cands := (List.range' alo (ahi - alo)).flatMap fun i =>
    (List.range' blo (bhi - blo)).map fun j => (i, j)
  let best := cands.foldl (bestStep junk a b ahi bhi) (alo, blo, 0)
  let f := matchLenF ((sliceSeg a alo best.1).reverse) ((sliceSeg b blo best.2.1).reverse)
  let e := matchLenF (sliceSeg a (best.1 + best.2.2) ahi) (sliceSeg b (best.2.1 + best.2.2) bhi)
  (best.1 - f, best.2.1 - f, best.2.2 + f + e)

/-- Total size of the matching blocks of get_matching_blocks on a region
pair: the longest match splits the region in two and each side is
processed when both of its extents are non-empty, exactly as the queue in
difflib pushes subregions.  The second and third conjunct of each guard
restate bounds that findLongestMatch already guarantees (the block lies
inside the region); they are included to make termination evident. -/
def matchedTotal (junk : Char → Bool) (a b : List Char)
    (alo ahi blo bhi : Nat) : Nat :=
  match findLongestMatch junk a b alo ahi blo bhi with
  | (i, j, k) =>
    if k = 0 then 0
    else
      (if _h1 : alo < i ∧ blo < j ∧ i < ahi ∧ j < bhi then
          matchedTotal junk a b alo i blo j
        else 0)
      + k
      + (if _h2 : i + k < ahi ∧ j + k < bhi ∧ alo < i + k ∧ blo < j + k then
          matchedTotal junk a b (i + k) ahi (j + k) bhi
        else 0)
termination_by (ahi - alo) + (bhi - blo)
decreasing_by
  · omega
  · omega

/-- difflib._calculate_ratio over a given junk predicate for b:
2 * matches / (len(a) + len(b)), or 1.0 for two empty sequences. -/
def similarityWith (junk : Char → Bool) (a b : List Char) : ℚ :=
  let matchesTotal := matchedTotal junk a b 0 a.length 0 b.length
  if a.length + b.length = 0 then 1
  else 2 * (matchesTotal : ℚ) / ((a.length + b.length : Nat) : ℚ)

/-- The autojunk heuristic of SequenceMatcher: when b has at least 200
characters, a character is junk ("popular") when it occurs more than
len(b) / 100 + 1 times in b. -/
def autojunkOf (b : List Char) (c : Char) : Bool :=
  decide (200 ≤ b.length) && decide (b.length / 100 + 1 < b.count c)

/-- SequenceMatcher(None, a, b).ratio() as the code calls it: the ratio
with the autojunk characters of b excluded from the block search. -/
def smSimilarity (a b : List Char) : ℚ :=
  similarityWith (autojunkOf b) a b

/-- The ratio described by the specification: the plain recursive
longest-common-block alignment ratio, with no junk heuristic at all. -/
def specSimilarity (a b : List Char) : ℚ :=
  similarityWith (fun _ => false) a b

/-- Python round to an integer: nearest, ties to even. -/
def roundHalfEven (q : ℚ) : ℤ :=
  if q - ⌊q⌋ < 1/2 then ⌊q⌋
  else if 1/2 < q - ⌊q⌋ then ⌊q⌋ + 1
  else if ⌊q⌋ % 2 = 0 then ⌊q⌋ else ⌊q⌋ + 1

/-- Python round(x, 3). -/
def round3 (q : ℚ) : ℚ :=
  (roundHalfEven (q * 1000) : ℚ) / 1000

/- ---------------------------------------------------------------------
   src/health.py
   --------------------------------------------------------------------- -/

/-- Threshold above which a shard counts as healthy. -/
def HEALTHY_THRESHOLD : ℚ := 0.8

/-- Threshold below which a shard counts as stale. -/
def STALE_THRESHOLD : ℚ := 0.4

/-- Number of stale views after which a shard is marked for deletion. -/
def MAX_STALE_VIEWS : Int := 2

/-- compute_health of src/health.py: 1.0 for identical strings, 0.0 when
either is empty, 0.99 for whitespace-only differences, otherwise the
SequenceMatcher ratio of the normalized strings rounded to 3 decimals. -/
def compute_health (original current : String) : ℚ :=
  if original = current then 1
  else if original = "" ∨ current = "" then 0
  else
    let orig_normalized := _normalize original
    let curr_normalized := _normalize current
    if orig_normalized = curr_normalized then 99/100
    else round3 (smSimilarity orig_normalized.data curr_normalized.data)

/- ---------------------------------------------------------------------
   src/glance/models.py: the Shard record and its content fingerprint,
   hashlib.sha256(content.encode()).hexdigest()[:16].  SHA-256 is spelled
   out over Nat with explicit reduction modulo 2 ^ 32.
   --------------------------------------------------------------------- -/

/-- UTF-8 encoding of a string as a byte list (Python str.encode()). -/
def utf8Bytes (s : String) : List Nat :=
  s.data.flatMap fun c =>
    let n := c.toNat
    if n < 128 then [n]
    else if n < 2048 then [192 + n / 64, 128 + n % 64]
    else if n < 65536 then [224 + n / 4096, 128 + n / 64 % 64, 128 + n % 64]
    else [240 + n / 262144, 128 + n / 4096 % 64, 128 + n / 64 % 64, 128 + n % 64]

/-- Truncation to a 32-bit word. -/
def w32 (x : Nat) : Nat := x % 4294967296

/-- Right rotation of a 32-bit word. -/
def rotr (n x : Nat) : Nat := w32 ((x >>> n) ||| (x <<< (32 - n)))

/-- SHA-256 big sigma 0. -/
def bsig0 (x : Nat) : Nat := rotr 2 x ^^^ rotr 13 x ^^^ rotr 22 x

/-- SHA-256 big sigma 1. -/
def bsig1 (x : Nat) : Nat := rotr 6 x ^^^ rotr 11 x ^^^ rotr 25 x

/-- SHA-256 small sigma 0. -/
def ssig0 (x : Nat) : Nat := rotr 7 x ^^^ rotr 18 x ^^^ (x >>> 3)

/-- SHA-256 small sigma 1. -/
def ssig1 (x : Nat) : Nat := rotr 17 x ^^^ rotr 19 x ^^^ (x >>> 10)

/-- SHA-256 choice function. -/
def chF (e f g : Nat) : Nat := (e &&& f) ^^^ ((e ^^^ 4294967295) &&& g)

/-- SHA-256 majority function. -/
def majF (a b c : Nat) : Nat := (a &&& b) ^^^ (a &&& c) ^^^ (b &&& c)

/-- SHA-256 round constants. -/
def sha256K : List Nat :=
  [1116352408, 1899447441, 3049323471, 3921009573, 961987163,
   1508970993, 2453635748, 2870763221, 3624381080, 310598401,
   607225278, 1426881987, 1925078388, 2162078206, 2614888103,
   3248222580, 3835390401, 4022224774, 264347078, 604807628,
   770255983, 1249150122, 1555081692, 1996064986, 2554220882,
   2821834349, 2952996808, 3210313671, 3336571891, 3584528711,
   113926993, 338241895, 666307205, 773529912, 1294757372,
   1396182291, 1695183700, 1986661051, 2177026350, 2456956037,
   2730485921, 2820302411, 3259730800, 3345764771, 3516065817,
   3600352804, 4094571909, 275423344, 430227734, 506948616,
   659060556, 883997877, 958139571, 1322822218, 1537002063,
   1747873779, 1955562222, 2024104815, 2227730452, 2361852424,
   2428436474, 2756734187, 3204031479, 3329325298]

/-- SHA-256 initial hash state (decimal). -/
def sha256H0 : List Nat :=
  [1779033703,
   3144134277,
   1013904242,
   2773480762,
   1359893119,
   2600822924,
   528734635,
   1541459225]

/-- SHA-256 padding: append the 0x80 byte, zeros to 56 mod 64, and the
message bit length as 8 big-endian bytes. -/
def sha256Pad (msg : List Nat) : List Nat :=
  let L := msg.length
  let padlen := (64 + 56 - (L + 1) % 64) % 64
  msg ++ 128 :: List.replicate padlen 0 ++
    (List.range 8).map fun i => ((8 * L) >>> (8 * (7 - i))) % 256

/-- Split a byte list into 64-byte blocks. -/
def chunk64 (l : List Nat) : List (List Nat) :=
  match l with
  | [] => []
  | x :: xs => (x :: xs).take 64 :: chunk64 ((x :: xs).drop 64)
termination_by l.length
decreasing_by simp; omega

/-- The 16 big-endian 32-bit words of a 64-byte block. -/
def wordsOf (block : List Nat) : List Nat :=
  (List.range 16).map fun i =>
    block.getD (4 * i) 0 * 16777216 + block.getD (4 * i + 1) 0 * 65536 +
      block.getD (4 * i + 2) 0 * 256 + block.getD (4 * i + 3) 0

/-- Extend the message schedule by the given number of words. -/
def buildW (w : List Nat) : Nat → List Nat
  | 0 => w
  | fuel + 1 =>
    let t := w.length
    buildW (w ++ [w32 (ssig1 (w.getD (t - 2) 0) + w.getD (t - 7) 0 +
      ssig0 (w.getD (t - 15) 0) + w.getD (t - 16) 0)]) fuel

/-- One SHA-256 compression round; the second component of the input pair
is the schedule word, the first the round constant. -/
def sha256Step (st : Nat × Nat × Nat × Nat × Nat × Nat × Nat × Nat)
    (kw : Nat × Nat) : Nat × Nat × Nat × Nat × Nat × Nat × Nat × Nat :=
  match st with
  | (a, b, c, d, e, f, g, h) =>
    let t1 := w32 (h + bsig1 e + chF e f g + kw.1 + kw.2)
    let t2 := w32 (bsig0 a + majF a b c)
    (w32 (t1 + t2), a, b, c, w32 (d + t1), e, f, g)

/-- SHA-256 compression of one 64-byte block into the running state. -/
def processBlock (H : List Nat) (block : List Nat) : List Nat :=
  let ws := buildW (wordsOf block) 48
  match (sha256K.zip ws).foldl sha256Step
      (H.getD 0 0, H.getD 1 0, H.getD 2 0, H.getD 3 0,
       H.getD 4 0, H.getD 5 0, H.getD 6 0, H.getD 7 0) with
  | (a, b, c, d, e, f, g, h) =>
    [w32 (H.getD 0 0 + a), w32 (H.getD 1 0 + b), w32 (H.getD 2 0 + c),
     w32 (H.getD 3 0 + d), w32 (H.getD 4 0 + e), w32 (H.getD 5 0 + f),
     w32 (H.getD 6 0 + g), w32 (H.getD 7 0 + h)]

/-- SHA-256 digest of a byte list, as 32 bytes. -/
def sha256Bytes (msg : List Nat) : List Nat :=
  ((chunk64 (sha256Pad msg)).foldl processBlock sha256H0).flatMap fun w =>
    [w / 16777216 % 256, w / 65536 % 256, w / 256 % 256, w % 256]

/-- Lower-case hexadecimal digit. -/
def hexChar (n : Nat) : Char :=
  if n < 10 then Char.ofNat (48 + n) else Char.ofNat (87 + n)

/-- Two hexadecimal digits of a byte. -/
def byteHex (b : Nat) : List Char := [hexChar (b / 16), hexChar (b % 16)]

/-- The Shard record of src/glance/models.py, restricted to the fields
the health assessment reads (the identity, anchor, summary, tag and
timestamp fields it carries for persistence are not consulted by the two
engines modeled here). -/
structure Shard where
  file : String
  original_content : String
  original_hash : String
  stale_views : Nat
deriving DecidableEq, Repr

/-- Shard.hash_content: hashlib.sha256(content.encode()).hexdigest()[:16]. -/
def Shard.hash_content (content : String) : String :=
  ⟨((sha256Bytes (utf8Bytes content)).flatMap byteHex).take 16⟩

/-- The ShardHealth verdict of src/health.py. -/
structure ShardHealth where
  score : ℚ
  status : String
  message : String
deriving DecidableEq, Repr

/-- ShardHealth.should_show_summary. -/
def ShardHealth.should_show_summary (h : ShardHealth) : Bool :=
  h.status == "healthy"

/-- ShardHealth.should_flag_deletion. -/
def ShardHealth.should_flag_deletion (h : ShardHealth) : Bool :=
  h.status == "stale" || h.status == "expired" || h.status == "broken"

/-- ShardHealth.should_delete. -/
def ShardHealth.should_delete (h : ShardHealth) : Bool :=
  h.status == "expired" || h.status == "broken"

/-- assess_shard of src/health.py, with its two helper computations (the
content fingerprint and the drift scorer) passed as parameters so that
the short-circuit paths can be stated as facts holding for an arbitrary
scorer or fingerprint; the code itself is the instance assess_shard
below. -/
def assess_with (hashFn : String → String) (scoreFn : String → String → ℚ)
    (shard : Shard) (current_content : Option String) : ShardHealth :=
  match current_content with
  | none =>
    { score := 0, status := "broken",
      message := "Could not resolve shard in " ++ shard.file }
  | some current =>
    let current_hash := hashFn current
    if current_hash = shard.original_hash then
      { score := 1, status := "healthy", message := "Unchanged" }
    else
      let score := scoreFn shard.original_content current
      if HEALTHY_THRESHOLD ≤ score then
        { score := score, status := "healthy",
          message := "Minor changes, summary still valid" }
      else if STALE_THRESHOLD ≤ score then
        { score := score, status := "degraded",
          message := "Notable changes detected — showing raw content instead of summary" }
      else
        let views_left : Int := MAX_STALE_VIEWS - shard.stale_views
        if views_left ≤ 0 then
          { score := score, status := "expired",
            message := "Major changes detected. This shard will be deleted. Re-create it to keep it alive." }
        else
          { score := score, status := "stale",
            message := "Major changes detected. Will be deleted after " ++
              toString views_left ++ " more view(s) unless re-created." }

/-- assess_shard as the source composes it: the SHA-256 fingerprint and
the SequenceMatcher-based drift scorer. -/
def assess_shard (shard : Shard) (current_content : Option String) : ShardHealth :=
  assess_with Shard.hash_content compute_health shard current_content

/- ---------------------------------------------------------------------
   src/resolver.py
   --------------------------------------------------------------------- -/

/-- ResolvedRegion of src/resolver.py. -/
structure ResolvedRegion where
  content : String
  start_line : Nat
  end_line : Nat
  function_anchor : Option String
deriving DecidableEq, Repr

/-- Name extraction shared by the definition patterns: a non-empty run of
word characters (the name-capturing group), then optional whitespace,
then one of the allowed opening characters.  Returns the name. -/
def finishName (cs : List Char) (closers : List Char) : Option String :=
  let nm := cs.takeWhile isWordChar
  if nm.isEmpty then none
  else
    match (cs.dropWhile isWordChar).dropWhile isPySpace with
    | c :: _ => if closers.contains c then some ⟨nm⟩ else none
    | [] => none

/-- Mandatory keyword followed by mandatory whitespace; the keyword and
the following run of whitespace are consumed.  The characters after the
whitespace run start with a non-space character (or the list ends), so
consuming the run maximally is the only way the pattern can continue. -/
def eatKwSp (cs kw : List Char) : Option (List Char) :=
  if kw.isPrefixOf cs then
    match cs.drop kw.length with
    | c :: rest => if isPySpace c then some ((c :: rest).dropWhile isPySpace) else none
    | [] => none
  else none

/-- Optional keyword-plus-whitespace group: consumed when it matches in
full, left alone otherwise.  Skipping cannot steal a match from the
alternative of not skipping, because each keyword used with this helper
differs from every keyword that may legally follow it. -/
def skipOptKwSp (cs kw : List Char) : List Char :=
  match eatKwSp cs kw with
  | some rest => rest
  | none => cs

/-- Python pattern: optional async, then def, then the name, then an
opening parenthesis. -/
def matchPy (line : List Char) : Option String :=
  match eatKwSp (skipOptKwSp (line.dropWhile isPySpace) "async".data) "def".data with
  | some rest => finishName rest ['(']
  | none => none

/-- JS/TS pattern: optional export, optional async, then function, the
name and an opening parenthesis. -/
def matchJs (line : List Char) : Option String :=
  match eatKwSp (skipOptKwSp (skipOptKwSp (line.dropWhile isPySpace) "export".data) "async".data) "function".data with
  | some rest => finishName rest ['(']
  | none => none

/-- Rust pattern: optional pub, optional async, then fn, the name and an
opening parenthesis or angle bracket. -/
def matchRust (line : List Char) : Option String :=
  match eatKwSp (skipOptKwSp (skipOptKwSp (line.dropWhile isPySpace) "pub".data) "async".data) "fn".data with
  | some rest => finishName rest ['(', '<']
  | none => none

/-- Go pattern: func, the name and an opening parenthesis. -/
def matchGo (line : List Char) : Option String :=
  match eatKwSp (line.dropWhile isPySpace) "func".data with
  | some rest => finishName rest ['(']
  | none => none

/-- Characters of the Java/C# type token class: word characters, angle
brackets and square brackets. -/
def isTypeChar (c : Char) : Bool :=
  isWordChar c || c == '<' || c == '>' || c == '[' || c == ']'

/-- The Java/C# modifier keywords. -/
def javaKws : List (List Char) :=
  ["public".data, "private".data, "protected".data, "static".data]

/-- One repetition of the Java/C# modifier group: one of the keywords or
a single whitespace character.  At any position at most one alternative
can match (the keywords are pairwise non-prefix and start with
non-whitespace), so the repetition is deterministic per step. -/
def p4Unit (cs : List Char) : Option (List Char) :=
  match javaKws.find? (fun kw => kw.isPrefixOf cs) with
  | some kw => some (cs.drop kw.length)
  | none =>
    match cs with
    | c :: rest => if isPySpace c then some rest else none
    | [] => none

/-- Remainders after one, two, three, ... repetitions of the modifier
group (each repetition consumes at least one character, so the fuel of
the length of the input suffices). -/
def p4Chain (cs : List Char) : Nat → List (List Char)
  | 0 => []
  | fuel + 1 =>
    match p4Unit cs with
    | some rest => rest :: p4Chain rest fuel
    | none => []

/-- The deterministic tail of the Java/C# pattern after the modifier
group: a non-empty type token, mandatory whitespace, then the name and
an opening parenthesis.  The type class, the whitespace class and the
word class are pairwise disjoint and the parenthesis belongs to none of
them, so maximal munch at each step is the only viable reading and no
backtracking arises within the tail. -/
def p4Rest (cs : List Char) : Option String :=
  let ty := cs.takeWhile isTypeChar
  if ty.isEmpty then none
  else
    match cs.dropWhile isTypeChar with
    | c :: rest =>
      if isPySpace c then finishName ((c :: rest).dropWhile isPySpace) ['(']
      else none
    | [] => none

/-- Java/C# pattern.  The regex engine prefers a maximal leading
whitespace run and a maximal number of modifier repetitions and
backtracks one choice at a time; since the rest of the pattern is a
deterministic function of the position where the modifier group ends,
this amounts to trying the possible end positions in a fixed order:
first the repetition chain starting at the first non-space character,
longest first, then (when leading whitespace exists, whose characters
can themselves serve as modifier repetitions) the positions inside the
leading whitespace, from its end backwards. -/
def matchJava (line : List Char) : Option String :=
  let lead := line.takeWhile isPySpace
  let body := line.dropWhile isPySpace
  let cands := (p4Chain body body.length).reverse ++
    (List.range lead.length).map fun t => line.drop (lead.length - t)
  cands.findSome? p4Rest

/-- detect_function_name of src/resolver.py: the FUNC_PATTERNS list is
tried in order and the first match yields the name.  For every pattern
the filtered last captured group is the word-character name group, which
each matcher above returns directly. -/
def detect_function_name (line : String) : Option String :=
  match matchPy line.data with
  | some n => some n
  | none =>
    match matchJs line.data with
    | some n => some n
    | none =>
      match matchRust line.data with
      | some n => some n
      | none =>
        match matchJava line.data with
        | some n => some n
        | none => matchGo line.data

/-- Scan a list of lines from a starting index, returning the index of
the first line satisfying the predicate. -/
def findIdxAux (p : String → Bool) : List String → Nat → Option Nat
  | [], _ => none
  | l :: ls, i => if p l then some i else findIdxAux p ls (i + 1)

/-- find_text_in_lines of src/resolver.py: the first line at or after
start_from in which the stripped text occurs, either in the stripped
line or in the raw line (the second test is the disjunction written in
the source; occurrence in the stripped line implies occurrence in the
raw line, so the disjunction is kept verbatim but redundant). -/
def find_text_in_lines (lines : List String) (text : String) (start_from : Nat) : Option Nat :=
  let text_stripped := stripStr text
  findIdxAux
    (fun line => containsStr (stripStr line) text_stripped || containsStr line text_stripped)
    (lines.drop start_from) start_from

/-- find_function_by_name of src/resolver.py. -/
def find_function_by_name (lines : List String) (func_name : String) : Option Nat :=
  findIdxAux (fun line => detect_function_name line == some func_name) lines 0

/-- The start-line search of resolve_region (steps 1 and 2): the direct
search for from_text, then the construct-hint fallback.  Python tests
the hint for truthiness, so an empty-string hint behaves like an absent
one. -/
def find_start (lines : List String) (from_text : String)
    (function_anchor : Option String) : Option Nat :=
  match find_text_in_lines lines from_text 0 with
  | some i => some i
  | none =>
    match function_anchor with
    | none => none
    | some fa =>
      if fa = "" then none
      else
        match find_function_by_name lines fa with
        | none => none
        | some func_line =>
          some ((find_text_in_lines lines from_text (func_line - 5)).getD func_line)

/-- The dedent scan of _find_block_end: from index i, with the given
remaining iteration count, find the first non-blank line whose
indentation is at most the start indentation and return the index just
before it.  The conjunct repeating that the stripped line is non-blank
is the redundant test written in the source. -/
def scanDedent (lines : List String) (start_indent : Nat) : Nat → Nat → Option Nat
  | _, 0 => none
  | i, fuel + 1 =>
    let line := lines.getD i ""
    if stripStr line = "" then scanDedent lines start_indent (i + 1) fuel
    else if line.length - (lstripStr line).length ≤ start_indent ∧ stripStr line ≠ "" then
      some (i - 1)
    else scanDedent lines start_indent (i + 1) fuel

/-- _find_block_end of src/resolver.py: when the start line looks like a
definition, scan up to 200 lines for a return to the starting
indentation (the block ends just before it), defaulting to 50 lines
ahead clamped to the last line; otherwise no result. -/
def _find_block_end (lines : List String) (start_idx : Nat) : Option Nat :=
  if lines.length ≤ start_idx then none
  else
    let start_line := lines.getD start_idx ""
    let start_indent := start_line.length - (lstripStr start_line).length
    if (detect_function_name start_line).isSome then
      match scanDedent lines start_indent (start_idx + 1)
          (min (start_idx + 200) lines.length - (start_idx + 1)) with
      | some e => some e
      | none => some (min (start_idx + 50) (lines.length - 1))
    else none

/-- The end-line computation of resolve_region (steps 3 and the last
resort): the direct search for to_text from the start line, else the
block-end inference, and the fixed window start + 20 clamped to the last
line when neither produced an end or the end precedes the start. -/
def resolve_end_idx (lines : List String) (to_text : String) (start_idx : Nat) : Nat :=
  match find_text_in_lines lines to_text start_idx with
  | some e => if e < start_idx then min (start_idx + 20) (lines.length - 1) else e
  | none =>
    match _find_block_end lines start_idx with
    | some e => if e < start_idx then min (start_idx + 20) (lines.length - 1) else e
    | none => min (start_idx + 20) (lines.length - 1)

/-- The containing-construct field of the result (step 7): the caller's
hint when truthy, else the construct detector's verdict on the start
line. -/
def resolve_anchor (lines : List String) (start_idx : Nat)
    (function_anchor : Option String) : Option String :=
  match function_anchor with
  | some fa => if fa = "" then detect_function_name (lines.getD start_idx "") else some fa
  | none => detect_function_name (lines.getD start_idx "")

/-- resolve_region of src/resolver.py.  The file argument is the result
of the read attempt: none models a missing, undecodable or
permission-denied file. -/
def resolve_region (file : Option String) (from_text to_text : String)
    (function_anchor : Option String) : Option ResolvedRegion :=
  match file with
  | none => none
  | some content =>
    let lines := splitlines content
    if lines.isEmpty then none
    else
      match find_start lines from_text function_anchor with
      | none => none
      | some start_idx =>
        let end_idx := resolve_end_idx lines to_text start_idx
        some
          { content := String.intercalate "\n" ((lines.drop start_idx).take (end_idx + 1 - start_idx)),
            start_line := start_idx + 1,
            end_line := end_idx + 1,
            function_anchor := resolve_anchor lines start_idx function_anchor }

/- ---------------------------------------------------------------------
   Claims about the health assessor (C1, C2, C3).
   --------------------------------------------------------------------- -/

/-- C1: for a record whose current content is present and whose
fingerprint differs from the stored hash, the status is determined by
the drift score and the prior stale-view count: healthy iff the score is
at least 0.8, degraded iff it lies in [0.4, 0.8), stale iff it is below
0.4 with fewer than 2 stale views, expired iff it is below 0.4 with at
least 2 stale views. -/
theorem c1_status_thresholds (shard : Shard) (current : String)
    (hhash : Shard.hash_content current ≠ shard.original_hash) :
    (assess_shard shard (some current)).score = compute_health shard.original_content current ∧
    ((assess_shard shard (some current)).status = "healthy" ↔
      (0.8 : ℚ) ≤ compute_health shard.original_content current) ∧
    ((assess_shard shard (some current)).status = "degraded" ↔
      (0.4 : ℚ) ≤ compute_health shard.original_content current ∧
        compute_health shard.original_content current < 0.8) ∧
    ((assess_shard shard (some current)).status = "stale" ↔
      compute_health shard.original_content current < 0.4 ∧ shard.stale_views < 2) ∧
    ((assess_shard shard (some current)).status = "expired" ↔
      compute_health shard.original_content current < 0.4 ∧ 2 ≤ shard.stale_views) := by
  have h04 : (0.4 : ℚ) = STALE_THRESHOLD := rfl
  have h08 : (0.8 : ℚ) = HEALTHY_THRESHOLD := rfl
  simp only [assess_shard, assess_with, if_neg hhash, h04, h08]
  set s := compute_health shard.original_content current with hsdef
  split_ifs with h1 h2 h3
  · exact ⟨rfl, iff_of_true rfl h1,
      iff_of_false (by simp) (fun h => absurd h1 (not_le.2 h.2)),
      iff_of_false (by simp)
        (fun h => absurd (le_trans (by norm_num [STALE_THRESHOLD, HEALTHY_THRESHOLD]) h1)
          (not_le.2 h.1)),
      iff_of_false (by simp)
        (fun h => absurd (le_trans (by norm_num [STALE_THRESHOLD, HEALTHY_THRESHOLD]) h1)
          (not_le.2 h.1))⟩
  · exact ⟨rfl, iff_of_false (by simp) h1,
      iff_of_true rfl ⟨h2, not_le.1 h1⟩,
      iff_of_false (by simp) (fun h => absurd h2 (not_le.2 h.1)),
      iff_of_false (by simp) (fun h => absurd h2 (not_le.2 h.1))⟩
  · exact ⟨rfl, iff_of_false (by simp) h1,
      iff_of_false (by simp) (fun h => h2 h.1),
      iff_of_false (by simp) (fun h => absurd h.2 (by simp only [MAX_STALE_VIEWS] at h3; omega)),
      iff_of_true rfl ⟨not_le.1 h2, by simp only [MAX_STALE_VIEWS] at h3; omega⟩⟩
  · exact ⟨rfl, iff_of_false (by simp) h1,
      iff_of_false (by simp) (fun h => h2 h.1),
      iff_of_true rfl ⟨not_le.1 h2, by simp only [MAX_STALE_VIEWS] at h3; omega⟩,
      iff_of_false (by simp) (fun h => absurd h.2 (by simp only [MAX_STALE_VIEWS] at h3; omega))⟩

/-- Witness for C1 at a concrete shard and content. -/
theorem c1_status_thresholds_witness :
    Shard.hash_content "xyz" ≠ "" ∧
    ((assess_shard ⟨"f.py", "abc", "", 0⟩ (some "xyz")).score = compute_health "abc" "xyz" ∧
     ((assess_shard ⟨"f.py", "abc", "", 0⟩ (some "xyz")).status = "healthy" ↔
       (0.8 : ℚ) ≤ compute_health "abc" "xyz") ∧
     ((assess_shard ⟨"f.py", "abc", "", 0⟩ (some "xyz")).status = "degraded" ↔
       (0.4 : ℚ) ≤ compute_health "abc" "xyz" ∧ compute_health "abc" "xyz" < 0.8) ∧
     ((assess_shard ⟨"f.py", "abc", "", 0⟩ (some "xyz")).status = "stale" ↔
       compute_health "abc" "xyz" < 0.4 ∧ (0 : Nat) < 2) ∧
     ((assess_shard ⟨"f.py", "abc", "", 0⟩ (some "xyz")).status = "expired" ↔
       compute_health "abc" "xyz" < 0.4 ∧ 2 ≤ (0 : Nat))) :=
  ⟨by decide!, c1_status_thresholds ⟨"f.py", "abc", "", 0⟩ "xyz" (by decide!)⟩

/-- C2: when the fingerprint of the present current content equals the
stored hash, assessment short-circuits to healthy with score exactly 1,
and it does so for an arbitrary drift scorer: the similarity algorithm
is never consulted. -/
theorem c2_short_circuit (shard : Shard) (current : String)
    (hhash : Shard.hash_content current = shard.original_hash) :
    assess_shard shard (some current) = ⟨1, "healthy", "Unchanged"⟩ ∧
    ∀ scoreFn : String → String → ℚ,
      assess_with Shard.hash_content scoreFn shard (some current) =
        ⟨1, "healthy", "Unchanged"⟩ := by
  refine ⟨?_, fun scoreFn => ?_⟩ <;> simp [assess_shard, assess_with, hhash]

/-- Witness for C2: a shard whose stored hash is the fingerprint of the
current content. -/
theorem c2_short_circuit_witness :
    assess_shard ⟨"m.py", "body", Shard.hash_content "body", 3⟩ (some "body") =
      ⟨1, "healthy", "Unchanged"⟩ :=
  (c2_short_circuit ⟨"m.py", "body", Shard.hash_content "body", 3⟩ "body" rfl).1

/-- C3: absent current content yields the broken verdict immediately,
for an arbitrary fingerprint function and arbitrary scorer (neither is
consulted), and a broken verdict is flagged for deletion and deleted
now. -/
theorem c3_broken_immediate :
    ∀ (hashFn : String → String) (scoreFn : String → String → ℚ) (shard : Shard),
      assess_with hashFn scoreFn shard none =
        ⟨0, "broken", "Could not resolve shard in " ++ shard.file⟩ ∧
      assess_shard shard none =
        ⟨0, "broken", "Could not resolve shard in " ++ shard.file⟩ ∧
      (assess_with hashFn scoreFn shard none).should_flag_deletion = true ∧
      (assess_with hashFn scoreFn shard none).should_delete = true :=
  fun _ _ _ => ⟨rfl, rfl, rfl, rfl⟩

/- ---------------------------------------------------------------------
   Claims about the drift scorer (C4, C5, C6).
   --------------------------------------------------------------------- -/

/-- C4, counterexample to the claim as stated: two strings that are not
byte-identical and have equal normalized forms but score 0, not 0.99,
because the empty-string fast path precedes normalization.  The empty
original differs from a lone space only in whitespace, both normalize to
the empty string, yet the score is 0. -/
theorem c4_counterexample :
    ("" : String) ≠ " " ∧ _normalize "" = _normalize " " ∧
    compute_health "" " " = 0 ∧ compute_health "" " " ≠ 99/100 := by decide!

/-- C4 as amended: for strings that are both non-empty, not
byte-identical, and whose normalized forms are equal, the drift score is
exactly 0.99. -/
theorem c4_whitespace_score (s1 s2 : String) (hne : s1 ≠ s2)
    (h1 : s1 ≠ "") (h2 : s2 ≠ "")
    (hnorm : _normalize s1 = _normalize s2) :
    compute_health s1 s2 = 99/100 := by
  simp only [compute_health, if_neg hne, hnorm]
  rw [if_neg (by simp [h1, h2])]
  simp

/-- Witness for the amended C4: dropping a trailing newline is a
whitespace-only change. -/
theorem c4_whitespace_score_witness :
    compute_health "a\n" "a" = 99/100 :=
  c4_whitespace_score "a\n" "a" (by decide) (by decide) (by decide) (by decide)

/-- C5: the fast paths of the drift scorer: a string scores 1 against
itself (byte equality, checked first), and two distinct strings score 0
whenever either is empty. -/
theorem c5_fast_paths :
    (∀ s : String, compute_health s s = 1) ∧
    (∀ s1 s2 : String, s1 ≠ s2 → s1 = "" ∨ s2 = "" → compute_health s1 s2 = 0) := by
  constructor
  · intro s
    simp [compute_health]
  · intro s1 s2 hne he
    unfold compute_health
    rw [if_neg hne, if_pos he]

/-- Witness for C5 on both conjuncts. -/
theorem c5_fast_paths_witness :
    compute_health "ab" "ab" = 1 ∧ compute_health "x" "" = 0 :=
  ⟨c5_fast_paths.1 "ab", c5_fast_paths.2 "x" "" (by decide) (Or.inr rfl)⟩

/-- C6, counterexample to the claim as stated: when the current
normalized content reaches 200 characters, the autojunk heuristic of
SequenceMatcher excludes its popular characters from the block search,
so the score the code computes can differ from the plain
longest-common-block alignment ratio the specification describes.  Here
the original is four z characters and the current content is a 200
character line whose four z characters are popular, hence junked: the
code scores 0 while the specified ratio rounds to 0.039. -/
theorem c6_counterexample :
    ("zzzz" : String) ≠ "abcdefghijklmnopqrstuvwxyabcdefghijklmnopqrstuvwxyabcdefghijklmnopqrstuvwxyabcdefghijklmnopqrstuvwxyabcdefghijklmnopqrstuvwxyabcdefghijklmnopqrstuvwxyabcdefghijklmnopqrstuvwxy0123456789ABCDEFGHIJKzzzz" ∧
    ("zzzz" : String) ≠ "" ∧
    ("abcdefghijklmnopqrstuvwxyabcdefghijklmnopqrstuvwxyabcdefghijklmnopqrstuvwxyabcdefghijklmnopqrstuvwxyabcdefghijklmnopqrstuvwxyabcdefghijklmnopqrstuvwxyabcdefghijklmnopqrstuvwxy0123456789ABCDEFGHIJKzzzz" : String) ≠ "" ∧
    _normalize "zzzz" ≠ _normalize "abcdefghijklmnopqrstuvwxyabcdefghijklmnopqrstuvwxyabcdefghijklmnopqrstuvwxyabcdefghijklmnopqrstuvwxyabcdefghijklmnopqrstuvwxyabcdefghijklmnopqrstuvwxyabcdefghijklmnopqrstuvwxy0123456789ABCDEFGHIJKzzzz" ∧
    compute_health "zzzz" "abcdefghijklmnopqrstuvwxyabcdefghijklmnopqrstuvwxyabcdefghijklmnopqrstuvwxyabcdefghijklmnopqrstuvwxyabcdefghijklmnopqrstuvwxyabcdefghijklmnopqrstuvwxyabcdefghijklmnopqrstuvwxy0123456789ABCDEFGHIJKzzzz" = 0 ∧
    round3 (specSimilarity (_normalize "zzzz").data
      (_normalize "abcdefghijklmnopqrstuvwxyabcdefghijklmnopqrstuvwxyabcdefghijklmnopqrstuvwxyabcdefghijklmnopqrstuvwxyabcdefghijklmnopqrstuvwxyabcdefghijklmnopqrstuvwxyabcdefghijklmnopqrstuvwxy0123456789ABCDEFGHIJKzzzz").data) = 39/1000 ∧
    compute_health "zzzz" "abcdefghijklmnopqrstuvwxyabcdefghijklmnopqrstuvwxyabcdefghijklmnopqrstuvwxyabcdefghijklmnopqrstuvwxyabcdefghijklmnopqrstuvwxyabcdefghijklmnopqrstuvwxyabcdefghijklmnopqrstuvwxy0123456789ABCDEFGHIJKzzzz" ≠
      round3 (specSimilarity (_normalize "zzzz").data
        (_normalize "abcdefghijklmnopqrstuvwxyabcdefghijklmnopqrstuvwxyabcdefghijklmnopqrstuvwxyabcdefghijklmnopqrstuvwxyabcdefghijklmnopqrstuvwxyabcdefghijklmnopqrstuvwxyabcdefghijklmnopqrstuvwxy0123456789ABCDEFGHIJKzzzz").data) := by decide!

/-- C6 as amended: when no fast path applies and the normalized current
content is shorter than 200 characters (so the autojunk heuristic never
fires), the drift score is the alignment ratio
2 * matchedChars / (len a + len b) of the recursive longest-common-block
algorithm over the two normalized strings, rounded to 3 decimals. -/
theorem c6_alignment_score (s1 s2 : String) (hne : s1 ≠ s2)
    (h1 : s1 ≠ "") (h2 : s2 ≠ "")
    (hnorm : _normalize s1 ≠ _normalize s2)
    (hlen : (_normalize s2).data.length < 200) :
    compute_health s1 s2 =
      round3 (specSimilarity (_normalize s1).data (_normalize s2).data) := by
  have hjunk : autojunkOf (_normalize s2).data = fun _ => false := by
    funext c
    have hle : ¬ 200 ≤ (_normalize s2).length := by simpa using hlen
    simp [autojunkOf, hle]
  simp only [compute_health, if_neg hne, if_neg hnorm]
  rw [if_neg (by simp [h1, h2])]
  simp only [smSimilarity, specSimilarity, hjunk]

/-- Witness for the amended C6 at two short snapshots. -/
theorem c6_alignment_score_witness :
    compute_health "ab" "cb" = round3 (specSimilarity "ab".data "cb".data) :=
  c6_alignment_score "ab" "cb" (by decide) (by decide) (by decide)
    (by decide!) (by decide!)

/- ---------------------------------------------------------------------
   Helper lemmas about the resolver searches.
   --------------------------------------------------------------------- -/

/-- A successful index scan returns an index at or after its start and
within the scanned lines. -/
theorem findIdxAux_some_bounds (p : String → Bool) :
    ∀ (l : List String) (i j : Nat), findIdxAux p l i = some j →
      i ≤ j ∧ j < i + l.length := by
  intro l
  induction l with
  | nil => intro i j h; simp [findIdxAux] at h
  | cons x xs ih =>
    intro i j h
    simp only [findIdxAux] at h
    by_cases hp : p x
    · rw [if_pos hp] at h
      cases h
      simp
    · rw [if_neg hp] at h
      have := ih (i + 1) j h
      simp only [List.length_cons]
      omega

/-- A successful text search returns a line index at or after the start
index and within the file. -/
theorem find_text_in_lines_some {lines : List String} {t : String} {s j : Nat}
    (h : find_text_in_lines lines t s = some j) : s ≤ j ∧ j < lines.length := by
  have hb := findIdxAux_some_bounds _ _ _ _ h
  have hd : (lines.drop s).length = lines.length - s := List.length_drop s lines
  omega

/-- A successful function search returns an index within the file. -/
theorem find_function_by_name_some {lines : List String} {fa : String} {j : Nat}
    (h : find_function_by_name lines fa = some j) : j < lines.length := by
  have hb := findIdxAux_some_bounds _ _ _ _ h
  omega

/-- A successful start search returns an index within the file. -/
theorem find_start_some_lt {lines : List String} {ft : String}
    {hint : Option String} {s : Nat}
    (h : find_start lines ft hint = some s) : s < lines.length := by
  cases h1 : find_text_in_lines lines ft 0 with
  | some i =>
    simp only [find_start, h1] at h
    cases h
    exact (find_text_in_lines_some h1).2
  | none =>
    cases hint with
    | none => simp [find_start, h1] at h
    | some fa =>
      simp only [find_start, h1] at h
      by_cases hfa : fa = ""
      · simp [hfa] at h
      · rw [if_neg hfa] at h
        cases h2 : find_function_by_name lines fa with
        | none =>
          simp only [h2] at h
          exact Option.noConfusion h
        | some fl =>
          simp only [h2] at h
          cases h
          cases h3 : find_text_in_lines lines ft (fl - 5) with
          | none => simpa using find_function_by_name_some h2
          | some i => simpa using (find_text_in_lines_some h3).2

/-- A successful dedent scan returns an index whose successor lies in
the scanned window. -/
theorem scanDedent_some_bounds (lines : List String) (ind : Nat) :
    ∀ (fuel i e : Nat), scanDedent lines ind i fuel = some e →
      i ≤ e + 1 ∧ e + 1 ≤ i + fuel := by
  intro fuel
  induction fuel with
  | zero => intro i e h; simp [scanDedent] at h
  | succ n ih =>
    intro i e h
    simp only [scanDedent] at h
    split_ifs at h with hblank hded
    · have := ih (i + 1) e h
      omega
    · cases h
      omega
    · have := ih (i + 1) e h
      omega

/-- A successful block-end inference stays at or after the start line
and within the file. -/
theorem _find_block_end_some_bounds {lines : List String} {s e : Nat}
    (hs : s < lines.length) (h : _find_block_end lines s = some e) :
    s ≤ e ∧ e < lines.length := by
  simp only [_find_block_end] at h
  rw [if_neg (show ¬ lines.length ≤ s by omega)] at h
  by_cases hdet : (detect_function_name (lines.getD s "")).isSome
  · rw [if_pos hdet] at h
    cases h2 : scanDedent lines
        ((lines.getD s "").length - (lstripStr (lines.getD s "")).length) (s + 1)
        (min (s + 200) lines.length - (s + 1)) with
    | some e2 =>
      rw [h2] at h
      cases h
      have := scanDedent_some_bounds lines _ _ _ _ h2
      omega
    | none =>
      rw [h2] at h
      cases h
      omega
  · rw [if_neg hdet] at h
    simp at h

/-- The end index computed by resolution lies between the start index
and the last line. -/
theorem resolve_end_idx_bounds {lines : List String} {tt_ : String} {s : Nat}
    (hs : s < lines.length) :
    s ≤ resolve_end_idx lines tt_ s ∧ resolve_end_idx lines tt_ s < lines.length := by
  cases h1 : find_text_in_lines lines tt_ s with
  | some e =>
    have hb := find_text_in_lines_some h1
    simp only [resolve_end_idx, h1]
    split_ifs with hlt <;> omega
  | none =>
    cases h2 : _find_block_end lines s with
    | some e =>
      have hb := _find_block_end_some_bounds hs h2
      simp only [resolve_end_idx, h1, h2]
      split_ifs with hlt <;> omega
    | none =>
      simp only [resolve_end_idx, h1, h2]
      omega

/- ---------------------------------------------------------------------
   Claims about the resolver (C7, C9, C10), and C8 with its lemmas.
   --------------------------------------------------------------------- -/

/-- C7: once a start line is located (directly or through the
construct-hint fallback), resolution always returns a region; and when
neither the end-marker search nor block-end inference yields an end line
(or the inferred end precedes the start), the end line is pinned to the
start line plus 20, clamped to the last line of the file. -/
theorem c7_never_fails (content from_text to_text : String)
    (hint : Option String) (s : Nat)
    (hs : find_start (splitlines content) from_text hint = some s) :
    ∃ r, resolve_region (some content) from_text to_text hint = some r ∧
      r.start_line = s + 1 ∧
      ((find_text_in_lines (splitlines content) to_text s = none ∧
        (∀ e, _find_block_end (splitlines content) s = some e → e < s)) →
        r.end_line = min (r.start_line + 20) (splitlines content).length) := by
  have hlt := find_start_some_lt hs
  have hne : ¬ (splitlines content).isEmpty := by
    simp only [List.isEmpty_iff]
    intro hemp
    rw [hemp] at hlt
    simp at hlt
  refine ⟨{ content := String.intercalate "\n" (((splitlines content).drop s).take
                (resolve_end_idx (splitlines content) to_text s + 1 - s)),
            start_line := s + 1,
            end_line := resolve_end_idx (splitlines content) to_text s + 1,
            function_anchor := resolve_anchor (splitlines content) s hint },
    ?_, rfl, ?_⟩
  · simp only [resolve_region, if_neg hne, hs]
  · rintro ⟨h1, h2⟩
    show resolve_end_idx (splitlines content) to_text s + 1 = min (s + 1 + 20) (splitlines content).length
    cases hb : _find_block_end (splitlines content) s with
    | some e =>
      have he := h2 e hb
      simp only [resolve_end_idx, h1, hb, if_pos he]
      omega
    | none =>
      simp only [resolve_end_idx, h1, hb]
      omega

/-- Witness for C7: the sole start line is found, the end marker and any
block end are absent, so the window is clamped to the last line. -/
theorem c7_never_fails_witness :
    ∃ r, resolve_region (some "x\ny") "x" "ZZ" none = some r ∧
      r.start_line = 0 + 1 ∧
      ((find_text_in_lines (splitlines "x\ny") "ZZ" 0 = none ∧
        (∀ e, _find_block_end (splitlines "x\ny") 0 = some e → e < 0)) →
        r.end_line = min (r.start_line + 20) (splitlines "x\ny").length) :=
  c7_never_fails "x\ny" "x" "ZZ" none 0 (by decide!)

/-- C9: when the direct search fails but a non-empty hint names a line
the construct detector recognizes, resolution succeeds and starts at the
result of re-running the direct search from five lines above the
construct (clamped to the top), falling back to the construct line. -/
theorem c9_hint_fallback (content from_text to_text fa : String) (fl : Nat)
    (hfa : fa ≠ "")
    (hdirect : find_text_in_lines (splitlines content) from_text 0 = none)
    (hfunc : find_function_by_name (splitlines content) fa = some fl) :
    ∃ r, resolve_region (some content) from_text to_text (some fa) = some r ∧
      r.start_line =
        ((find_text_in_lines (splitlines content) from_text (fl - 5)).getD fl) + 1 := by
  have hstart : find_start (splitlines content) from_text (some fa) =
      some ((find_text_in_lines (splitlines content) from_text (fl - 5)).getD fl) := by
    simp only [find_start, hdirect, hfunc, if_neg hfa]
  have hlt := find_start_some_lt hstart
  have hne : ¬ (splitlines content).isEmpty := by
    simp only [List.isEmpty_iff]
    intro hemp
    rw [hemp] at hlt
    simp at hlt
  refine ⟨{ content := String.intercalate "\n" (((splitlines content).drop
                ((find_text_in_lines (splitlines content) from_text (fl - 5)).getD fl)).take
                (resolve_end_idx (splitlines content) to_text
                    ((find_text_in_lines (splitlines content) from_text (fl - 5)).getD fl) + 1 -
                  (find_text_in_lines (splitlines content) from_text (fl - 5)).getD fl)),
            start_line := (find_text_in_lines (splitlines content) from_text (fl - 5)).getD fl + 1,
            end_line := resolve_end_idx (splitlines content) to_text
                ((find_text_in_lines (splitlines content) from_text (fl - 5)).getD fl) + 1,
            function_anchor := resolve_anchor (splitlines content)
              ((find_text_in_lines (splitlines content) from_text (fl - 5)).getD fl) (some fa) },
    ?_, rfl⟩
  simp only [resolve_region, if_neg hne, hstart]

/-- Witness for C9: the marker is absent but the hint names the detected
function on line 1, which anchors the region. -/
theorem c9_hint_fallback_witness :
    ∃ r, resolve_region (some "def foo():\n  return 1") "NOPE" "ZZ" (some "foo") = some r ∧
      r.start_line =
        ((find_text_in_lines (splitlines "def foo():\n  return 1") "NOPE" (0 - 5)).getD 0) + 1 :=
  c9_hint_fallback "def foo():\n  return 1" "NOPE" "ZZ" "foo" 0 (by decide)
    (by decide!) (by decide!)

/-- C10: every region resolution returns satisfies the line invariants:
the 1-indexed inclusive span lies within the file, and the content is
exactly the newline-join of the spanned lines. -/
theorem c10_region_invariants (content from_text to_text : String)
    (hint : Option String) (r : ResolvedRegion)
    (h : resolve_region (some content) from_text to_text hint = some r) :
    1 ≤ r.start_line ∧ r.start_line ≤ r.end_line ∧
    r.end_line ≤ (splitlines content).length ∧
    r.content = String.intercalate "\n"
      (((splitlines content).drop (r.start_line - 1)).take
        (r.end_line + 1 - r.start_line)) := by
  by_cases hemp : (splitlines content).isEmpty
  · simp only [resolve_region, if_pos hemp] at h
    exact Option.noConfusion h
  · simp only [resolve_region, if_neg hemp] at h
    cases hfs : find_start (splitlines content) from_text hint with
    | none =>
      simp only [hfs] at h
      exact Option.noConfusion h
    | some s =>
      simp only [hfs] at h
      have hlt := find_start_some_lt hfs
      have hend := @resolve_end_idx_bounds (splitlines content) to_text s hlt
      cases h
      dsimp only
      refine ⟨by omega, by omega, by omega, ?_⟩
      have harith : resolve_end_idx (splitlines content) to_text s + 1 + 1 - (s + 1) =
          resolve_end_idx (splitlines content) to_text s + 1 - s := by omega
      simp only [harith, Nat.add_sub_cancel]

/-- Witness for C10 at a fully resolved concrete region. -/
theorem c10_region_invariants_witness :
    1 ≤ 1 ∧ (1 : Nat) ≤ 2 ∧ 2 ≤ (splitlines "a\nb").length ∧
    ("a\nb" : String) = String.intercalate "\n"
      (((splitlines "a\nb").drop (1 - 1)).take (2 + 1 - 1)) :=
  c10_region_invariants "a\nb" "a" "b" none ⟨"a\nb", 1, 2, none⟩ (by decide!)

/-- A name produced by finishName is a non-empty run of word
characters. -/
theorem finishName_ne_empty {cs closers : List Char} {s : String}
    (h : finishName cs closers = some s) : s ≠ "" := by
  simp only [finishName] at h
  by_cases hemp : (List.takeWhile isWordChar cs).isEmpty
  · rw [if_pos hemp] at h
    exact Option.noConfusion h
  · rw [if_neg hemp] at h
    split at h
    · rename_i c tail heq2
      by_cases hc : closers.contains c = true
      · rw [if_pos hc] at h
        cases h
        intro heq
        have hd : cs.takeWhile isWordChar = [] := congrArg String.data heq
        exact hemp (by simp [hd])
      · rw [if_neg hc] at h
        exact Option.noConfusion h
    · exact Option.noConfusion h

/-- The Python matcher never returns an empty name. -/
theorem matchPy_ne_empty {line : List Char} {s : String}
    (h : matchPy line = some s) : s ≠ "" := by
  unfold matchPy at h
  cases he : eatKwSp (skipOptKwSp (line.dropWhile isPySpace) "async".data) "def".data with
  | some rest => simp only [he] at h; exact finishName_ne_empty h
  | none => simp only [he] at h; exact Option.noConfusion h

/-- The JS/TS matcher never returns an empty name. -/
theorem matchJs_ne_empty {line : List Char} {s : String}
    (h : matchJs line = some s) : s ≠ "" := by
  unfold matchJs at h
  cases he : eatKwSp (skipOptKwSp (skipOptKwSp (line.dropWhile isPySpace) "export".data)
      "async".data) "function".data with
  | some rest => simp only [he] at h; exact finishName_ne_empty h
  | none => simp only [he] at h; exact Option.noConfusion h

/-- The Rust matcher never returns an empty name. -/
theorem matchRust_ne_empty {line : List Char} {s : String}
    (h : matchRust line = some s) : s ≠ "" := by
  unfold matchRust at h
  cases he : eatKwSp (skipOptKwSp (skipOptKwSp (line.dropWhile isPySpace) "pub".data)
      "async".data) "fn".data with
  | some rest => simp only [he] at h; exact finishName_ne_empty h
  | none => simp only [he] at h; exact Option.noConfusion h

/-- The Go matcher never returns an empty name. -/
theorem matchGo_ne_empty {line : List Char} {s : String}
    (h : matchGo line = some s) : s ≠ "" := by
  unfold matchGo at h
  cases he : eatKwSp (line.dropWhile isPySpace) "func".data with
  | some rest => simp only [he] at h; exact finishName_ne_empty h
  | none => simp only [he] at h; exact Option.noConfusion h

/-- The tail of the Java/C# pattern never returns an empty name. -/
theorem p4Rest_ne_empty {cs : List Char} {s : String}
    (h : p4Rest cs = some s) : s ≠ "" := by
  simp only [p4Rest] at h
  by_cases hty : (List.takeWhile isTypeChar cs).isEmpty
  · rw [if_pos hty] at h
    exact Option.noConfusion h
  · rw [if_neg hty] at h
    split at h
    · rename_i c rest heq2
      by_cases hsp : isPySpace c = true
      · rw [if_pos hsp] at h
        exact finishName_ne_empty h
      · rw [if_neg hsp] at h
        exact Option.noConfusion h
    · exact Option.noConfusion h

/-- The Java/C# matcher never returns an empty name. -/
theorem matchJava_ne_empty {line : List Char} {s : String}
    (h : matchJava line = some s) : s ≠ "" := by
  unfold matchJava at h
  obtain ⟨a, _, ha⟩ := List.exists_of_findSome?_eq_some h
  exact p4Rest_ne_empty ha

/-- The construct detector never returns an empty name: every pattern
captures the name as a non-empty run of word characters. -/
theorem detect_function_name_ne_empty {line : String} {s : String}
    (h : detect_function_name line = some s) : s ≠ "" := by
  unfold detect_function_name at h
  cases h1 : matchPy line.data with
  | some n => simp only [h1] at h; cases h; exact matchPy_ne_empty h1
  | none =>
    simp only [h1] at h
    cases h2 : matchJs line.data with
    | some n => simp only [h2] at h; cases h; exact matchJs_ne_empty h2
    | none =>
      simp only [h2] at h
      cases h3 : matchRust line.data with
      | some n => simp only [h3] at h; cases h; exact matchRust_ne_empty h3
      | none =>
        simp only [h3] at h
        cases h4 : matchJava line.data with
        | some n => simp only [h4] at h; cases h; exact matchJava_ne_empty h4
        | none => simp only [h4] at h; exact matchGo_ne_empty h

/-- Searching for a construct with an empty name never succeeds. -/
theorem find_function_by_name_empty (lines : List String) :
    find_function_by_name lines "" = none := by
  unfold find_function_by_name
  suffices hgen : ∀ (l : List String) (i : Nat),
      findIdxAux (fun line => detect_function_name line == some "") l i = none from
    hgen lines 0
  intro l
  induction l with
  | nil => intro i; rfl
  | cons x xs ih =>
    intro i
    have hp : (detect_function_name x == some "") = false := by
      cases hd : detect_function_name x with
      | none => rfl
      | some n =>
        have hn := detect_function_name_ne_empty hd
        simp only [beq_eq_false_iff_ne, ne_eq, Option.some.injEq]
        exact hn
    simp only [findIdxAux, hp]
    simpa using ih (i + 1)

/-- The start search fails exactly when the direct search fails and the
hint either is absent or names no detected construct (an empty-string
hint is falsy in Python, and an empty name never matches a construct,
so both readings agree). -/
theorem find_start_eq_none_iff (lines : List String) (ft : String) (hint : Option String) :
    find_start lines ft hint = none ↔
      find_text_in_lines lines ft 0 = none ∧
      (match hint with
       | none => True
       | some fa => find_function_by_name lines fa = none) := by
  cases h1 : find_text_in_lines lines ft 0 with
  | some i =>
    simp only [find_start, h1]
    exact iff_of_false (by simp) (fun hc => Option.noConfusion hc.1)
  | none =>
    cases hint with
    | none => simp [find_start, h1]
    | some fa =>
      simp only [find_start, h1]
      by_cases hfa : fa = ""
      · subst hfa
        rw [if_pos rfl]
        simp [h1, find_function_by_name_empty]
      · rw [if_neg hfa]
        cases h2 : find_function_by_name lines fa with
        | none => simp [h1, h2]
        | some fl =>
          simp only [h2]
          exact iff_of_false (by simp) (fun hc => Option.noConfusion hc.2)

/-- C8: resolution returns not-found exactly when no start line exists:
the file is unreadable (modeled by a none input), the file splits into
no lines, or the direct search fails and the hint is absent or matches
no detected construct. -/
theorem c8_not_found_iff (content ft tt_ : String) (hint : Option String) :
    resolve_region none ft tt_ hint = none ∧
    (resolve_region (some content) ft tt_ hint = none ↔
      splitlines content = [] ∨
      (find_text_in_lines (splitlines content) ft 0 = none ∧
        (match hint with
         | none => True
         | some fa => find_function_by_name (splitlines content) fa = none))) := by
  refine ⟨rfl, ?_⟩
  by_cases hemp : (splitlines content).isEmpty
  · simp only [resolve_region, if_pos hemp]
    simp [List.isEmpty_iff.mp hemp]
  · simp only [resolve_region, if_neg hemp]
    have hne : splitlines content ≠ [] := fun hh => hemp (by simp [hh])
    cases hfs : find_start (splitlines content) ft hint with
    | none =>
      simp only [hfs]
      exact iff_of_true trivial (Or.inr ((find_start_eq_none_iff _ _ _).mp hfs))
    | some s =>
      simp only [hfs]
      refine iff_of_false (by simp) (fun hR => ?_)
      cases hR with
      | inl hl => exact hne hl
      | inr hr =>
        have hcontra := (find_start_eq_none_iff (splitlines content) ft hint).mpr hr
        rw [hfs] at hcontra
        exact Option.noConfusion hcontra

/-- Witness for C8: a file whose sole line lacks the marker, with no
hint, resolves to not-found. -/
theorem c8_not_found_iff_witness :
    resolve_region (some "line one") "absent" "end-marker" none = none :=
  ((c8_not_found_iff "line one" "absent" "end-marker" none).2).mpr
    (Or.inr ⟨by decide!, trivial⟩)
